import Mathlib

/-!
Verification of the VIES return generator core
(`vies_generator/excel_processor.py`, `vies_generator/generator.py`).

The processing pipeline is embedded shallowly:

* Python strings are `String`, manipulated through structural helpers on
  `String.data` (`pyStrip` models `str.strip()`, `strLower` models
  `str.lower()`, and so on), restricted to the ASCII behaviour the data
  formats use.
* Python floats are idealised as exact rationals, represented by the
  unnormalised fraction type `Amt` so that every operation is computable
  by the kernel.  `round(x, 2)` and the `"%.2f"` formatting both use
  round-half-to-even, as CPython does.
* A spreadsheet row (after pandas column mapping) is a `Row` of optional
  cells; `none` stands for an unmapped column or a NaN cell, which the
  source treats identically in every branch that matters.
* The body of the `process_data` loop is `rowEval`; the mutation of the
  accumulators is `applyOutcome`; `processData` folds them over the rows.
-/

namespace VIES

/-- Does `p` occur as a leading block of `l`?  (Helper for the Python
substring operator `in`.) -/
def listStarts : List Char → List Char → Bool
  | [], _ => true
  | _ :: _, [] => false
  | a :: p, b :: l => a == b && listStarts p l

/-- Does `p` occur as a contiguous block anywhere in `l`?  Models the
Python substring test `p in l`. -/
def listHas (p : List Char) : List Char → Bool
  | [] => listStarts p []
  | l@(_ :: rest) => listStarts p l || listHas p rest

/-- Drop leading and trailing whitespace characters; models Python
`str.strip()` (on the whitespace characters that `Char.isWhitespace`
recognises). -/
def stripList (l : List Char) : List Char :=
  ((l.dropWhile Char.isWhitespace).reverse.dropWhile Char.isWhitespace).reverse

/-- Python `str.strip()`. -/
def pyStrip (s : String) : String :=
  ⟨stripList s.data⟩

/-- Python `str.lower()` (ASCII case folding). -/
def strLower (s : String) : String :=
  ⟨s.data.map Char.toLower⟩

/-- Python `str.upper()` (ASCII case folding). -/
def strUpper (s : String) : String :=
  ⟨s.data.map Char.toUpper⟩

/-- Replace every occurrence of the single character `c` by `rep`.
Models Python `str.replace(c, rep)` for a one-character pattern, which is
the only form the source uses. -/
def replChar (c : Char) (rep : List Char) : List Char → List Char
  | [] => []
  | a :: l => (if a == c then rep else [a]) ++ replChar c rep l

/-- Python `s.replace(c, rep)` for a one-character pattern `c`. -/
def strReplaceChar (c : Char) (rep : String) (s : String) : String :=
  ⟨replChar c rep.data s.data⟩

/-- Split at every occurrence of the character `c`; models Python
`str.split(c)` / `str.splitOn` for a one-character separator. -/
def splitChar (c : Char) : List Char → List (List Char)
  | [] => [[]]
  | a :: l =>
    match splitChar c l with
    | [] => [[a]]
    | h :: t => if a == c then [] :: h :: t else (a :: h) :: t

/-- Python `s.split(c)` for a one-character separator. -/
def strSplitChar (c : Char) (s : String) : List String :=
  (splitChar c s.data).map String.mk

/-- Join a list of strings with a separator; models `sep.join(parts)`. -/
def joinWith (sep : String) : List String → String
  | [] => ""
  | [x] => x
  | x :: xs => x ++ sep ++ joinWith sep xs

/-- Numeric value of a list of decimal digit characters. -/
def digitsToNat (l : List Char) : ℕ :=
  l.foldl (fun a c => 10 * a + (c.toNat - 48)) 0

/-- Code-point lexicographic comparison on character lists, the order
Python `sorted` uses on strings. -/
def lexLe : List Char → List Char → Bool
  | [], _ => true
  | _ :: _, [] => false
  | a :: l, b :: m =>
    if a.toNat < b.toNat then true
    else if b.toNat < a.toNat then false
    else lexLe l m

/-- Code-point lexicographic comparison on strings. -/
def strLeB (a b : String) : Bool :=
  lexLe a.data b.data

/-- Insert into a sorted list of strings. -/
def insSorted (a : String) : List String → List String
  | [] => [a]
  | b :: l => if strLeB a b then a :: b :: l else b :: insSorted a l

/-- Sort strings in the Python code-point order (models `sorted`). -/
def sortStrings (l : List String) : List String :=
  l.foldr insSorted []

/-- Exact rational amounts as unnormalised fractions.  Python float
arithmetic is idealised as exact rational arithmetic; this representation
keeps every operation kernel-computable.  All constructors used by the
pipeline produce a positive denominator. -/
structure Amt where
  num : ℤ
  den : ℕ
  deriving DecidableEq, Repr

/-- The zero amount. -/
def Amt.zero : Amt := ⟨0, 1⟩

/-- An integral amount. -/
def Amt.ofInt (n : ℤ) : Amt := ⟨n, 1⟩

/-- Addition of amounts (exact fraction addition without reduction). -/
def Amt.add (a b : Amt) : Amt :=
  ⟨a.num * b.den + b.num * a.den, a.den * b.den⟩

/-- Python `x == 0` on an amount with positive denominator. -/
def Amt.isZero (a : Amt) : Bool :=
  a.num == 0

/-- Strict order on amounts (correct whenever denominators are
positive, which all pipeline-constructed amounts are). -/
def Amt.ltB (a b : Amt) : Bool :=
  a.num * b.den < b.num * a.den

/-- Sum of a list of amounts. -/
def amtSum (l : List Amt) : Amt :=
  l.foldr Amt.add Amt.zero

/-- Round an amount to the nearest integer, ties to even — the rounding
the CPython `round` builtin and `"%.2f"` formatting use. -/
def Amt.rhe (a : Amt) : ℤ :=
  let f := a.num.ediv a.den
  let r2 := 2 * (a.num - f * a.den)
  if r2 < (a.den : ℤ) then f
  else if (a.den : ℤ) < r2 then f + 1
  else if f % 2 = 0 then f else f + 1

/-- Python `round(x, 2)`: round to the nearest multiple of `1/100`,
ties to even. -/
def round2 (a : Amt) : Amt :=
  ⟨Amt.rhe ⟨100 * a.num, a.den⟩, 100⟩

/-- Pad a natural number below 100 to two decimal digits. -/
def pad2 (n : ℕ) : String :=
  if n < 10 then "0" ++ toString n else toString n

/-- Python `f"{x:.2f}"` on an amount: fixed-point rendering with exactly
two fractional digits, round-half-to-even. -/
def formatAmount2 (a : Amt) : String :=
  let n := Amt.rhe ⟨100 * a.num, a.den⟩
  (if n < 0 then "-" else "") ++ toString (n.natAbs / 100) ++ "." ++ pad2 (n.natAbs % 100)

/-- Python `float(s)` restricted to finite decimal literals: optional
surrounding whitespace, optional sign, digits with an optional single
decimal point, and an optional decimal exponent.  Special values
(`inf`, `nan`) and digit-group underscores are not modelled; none of the
formats the pipeline contract mentions use them. -/
def pyFloat (s : String) : Option Amt :=
  let l0 := stripList s.data
  let sgn : ℤ := if l0.take 1 == ['-'] then -1 else 1
  let l1 := if l0.take 1 == ['-'] || l0.take 1 == ['+'] then l0.drop 1 else l0
  let ip := l1.takeWhile Char.isDigit
  let r1 := l1.dropWhile Char.isDigit
  let fp := if r1.take 1 == ['.'] then (r1.drop 1).takeWhile Char.isDigit else []
  let r2 := if r1.take 1 == ['.'] then (r1.drop 1).dropWhile Char.isDigit else r1
  if ip.isEmpty && fp.isEmpty then none
  else
    let mant : Amt := ⟨sgn * ((digitsToNat ip) * 10 ^ fp.length + digitsToNat fp), 10 ^ fp.length⟩
    match r2 with
    | [] => some mant
    | e :: r3 =>
      if e == 'e' || e == 'E' then
        let esgn : Bool := r3.take 1 == ['-']
        let r4 := if r3.take 1 == ['-'] || r3.take 1 == ['+'] then r3.drop 1 else r3
        let ed := r4.takeWhile Char.isDigit
        let r5 := r4.dropWhile Char.isDigit
        if ed.isEmpty || !r5.isEmpty then none
        else if esgn then some ⟨mant.num, mant.den * 10 ^ digitsToNat ed⟩
        else some ⟨mant.num * 10 ^ digitsToNat ed, mant.den⟩
      else none

/-- Structured reasons produced by `validate_vat_number` (the embedding
replaces the formatted Python message strings by constructors that carry
the same data). -/
inductive VatReason where
  | missing
  | repeating (digit : Char) (runLen : ℕ)
  | sequential (window : List Char)
  | allSame (digit : Char)
  | tooShort (len : ℕ)
  | badFormat (country : String)
  deriving DecidableEq, Repr

/-- Length of the leading run of copies of `c`. -/
def leadRun (c : Char) : List Char → ℕ
  | [] => 0
  | a :: l => if a == c then leadRun c l + 1 else 0

/-- Leftmost match of the Python regex `(\d)\1{3,}` (a digit repeated
four or more times in a row), returning the digit and the greedy run
length, as `re.search` does. -/
def repeatSearch : List Char → Option (Char × ℕ)
  | [] => none
  | c :: l =>
    if c.isDigit && (l.take 3 == [c, c, c]) then some (c, 1 + leadRun c l)
    else repeatSearch l

/-- The ascending digit string `'01234567890'` from the source. -/
def ascDigits : List Char := "01234567890".data

/-- The descending digit string `'98765432109'` from the source. -/
def descDigits : List Char := "98765432109".data

/-- First 5-character all-digit window that occurs inside
`'01234567890'` or `'98765432109'`; models the sequential-digit loop of
`validate_vat_number`. -/
def seqSearch : List Char → Option (List Char)
  | [] => none
  | l@(_ :: rest) =>
    let w := l.take 5
    if w.length == 5 && w.all Char.isDigit && (listHas w ascDigits || listHas w descDigits) then
      some w
    else seqSearch rest

/-- Python `str.isdigit()` (ASCII digits; true only on non-empty
strings). -/
def pyIsDigits (l : List Char) : Bool :=
  !l.isEmpty && l.all Char.isDigit

/-- Character class `[A-Z]` of the source regexes (ASCII uppercase letter). -/
def isUpperAZ (c : Char) : Bool :=
  'A' ≤ c && c ≤ 'Z'

/-- Character class `[A-Z0-9]` of the source regexes. -/
def isUpperAZ09 (c : Char) : Bool :=
  isUpperAZ c || c.isDigit

/-- Exactly `n` ASCII digits (the anchored digit-run regexes). -/
def fmtDigits (n : ℕ) (l : List Char) : Bool :=
  l.length == n && l.all Char.isDigit

/-- Between `a` and `b` ASCII digits (`^\d{a,b}$`). -/
def fmtDigitsRange (a b : ℕ) (l : List Char) : Bool :=
  a ≤ l.length && l.length ≤ b && l.all Char.isDigit

/-- The per-country VAT format table `VAT_FORMATS`, one checker per
anchored regex. -/
def vatFormat (cc : String) : Option (List Char → Bool) :=
  if cc == "AT" then some fun l => l.take 1 == ['U'] && fmtDigits 8 (l.drop 1)
  else if cc == "BE" then some (fmtDigits 10)
  else if cc == "BG" then some (fmtDigitsRange 9 10)
  else if cc == "CY" then some fun l =>
    l.length == 9 && fmtDigits 8 (l.take 8) && (l.drop 8).all isUpperAZ
  else if cc == "CZ" then some (fmtDigitsRange 8 10)
  else if cc == "DE" then some (fmtDigits 9)
  else if cc == "DK" then some (fmtDigits 8)
  else if cc == "EE" then some (fmtDigits 9)
  else if cc == "EL" then some (fmtDigits 9)
  else if cc == "ES" then some fun l =>
    l.length == 9 && (l.take 1).all isUpperAZ09 && fmtDigits 7 ((l.drop 1).take 7)
      && (l.drop 8).all isUpperAZ09
  else if cc == "FI" then some (fmtDigits 8)
  else if cc == "FR" then some fun l =>
    l.length == 11 && (l.take 2).all isUpperAZ09 && fmtDigits 9 (l.drop 2)
  else if cc == "GB" then some fun l =>
    fmtDigits 9 l || fmtDigits 12 l || (l.take 2 == ['G', 'D'] && fmtDigits 3 (l.drop 2))
      || (l.take 2 == ['H', 'A'] && fmtDigits 3 (l.drop 2))
  else if cc == "HR" then some (fmtDigits 11)
  else if cc == "HU" then some (fmtDigits 8)
  else if cc == "IE" then some fun l =>
    fmtDigits 7 (l.take 7) && (l.drop 7).all isUpperAZ
      && (l.length == 8 || l.length == 9)
  else if cc == "IT" then some (fmtDigits 11)
  else if cc == "LT" then some fun l => fmtDigits 9 l || fmtDigits 12 l
  else if cc == "LU" then some (fmtDigits 8)
  else if cc == "LV" then some (fmtDigits 11)
  else if cc == "MT" then some (fmtDigits 8)
  else if cc == "NL" then some fun l =>
    l.length == 12 && fmtDigits 9 (l.take 9) && (l.drop 9).take 1 == ['B']
      && fmtDigits 2 (l.drop 10)
  else if cc == "PL" then some (fmtDigits 10)
  else if cc == "PT" then some (fmtDigits 9)
  else if cc == "RO" then some (fmtDigitsRange 2 10)
  else if cc == "SE" then some (fmtDigits 12)
  else if cc == "SI" then some (fmtDigits 8)
  else if cc == "SK" then some (fmtDigits 10)
  else none

/-- Model of `ExcelProcessor.validate_vat_number`: heuristic validity
check returning `(is_valid, suspicion_reason)`. -/
def validateVat (countryCode vatNumber : String) : Bool × Option VatReason :=
  if countryCode == "" || vatNumber == "" then (false, some .missing)
  else
    let cc := strUpper countryCode
    let v := pyStrip vatNumber
    match repeatSearch v.data with
    | some (d, n) => (false, some (.repeating d n))
    | none =>
      match seqSearch v.data with
      | some w => (false, some (.sequential w))
      | none =>
        if pyIsDigits v.data && v.data.all (fun c => c == v.data.headD ' ') then
          (false, some (.allSame (v.data.headD ' ')))
        else if v.data.length < 5 && pyIsDigits v.data then
          (false, some (.tooShort v.data.length))
        else
          match vatFormat cc with
          | some ok => if ok v.data then (true, none) else (false, some (.badFormat cc))
          | none => (true, none)

/-- Model of `ExcelProcessor.extract_country_code`: split a combined VAT cell into
a 2-letter country prefix and the rest when it matches
`^([A-Z]{2})([A-Z0-9]+)$` after space removal; otherwise return the
cleaned value with no country code. -/
def extractCountryCode (vat : String) : String × String :=
  if vat == "" then ("", "")
  else
    let v := strUpper (pyStrip vat)
    let cleaned := replChar ' ' [] v.data
    match cleaned with
    | c1 :: c2 :: rest =>
      if isUpperAZ c1 && isUpperAZ c2 && !rest.isEmpty && rest.all isUpperAZ09 then
        (⟨[c1, c2]⟩, ⟨rest⟩)
      else ("", v)
    | _ => ("", v)


/-- One amount cell as pandas hands it to the loop: missing/NaN, a
native number, or a string. -/
inductive AmountCell where
  | na
  | num (q : Amt)
  | str (s : String)
  deriving DecidableEq

/-- One spreadsheet row after column mapping.  A `none` cell stands for
an unmapped column or a NaN value — the source treats the two the same
way in every branch (`str(nan) = "nan"` never contains `"total"`, and
every other access guards with `pd.isna`). -/
structure Row where
  line : Option String := none
  customer : Option String := none
  country : Option String := none
  vat : Option String := none
  amountCell : AmountCell := .na
  ttype : Option String := none
  deriving DecidableEq

/-- The per-row transaction dict built by `process_data`. -/
structure Transaction where
  line_number : String
  customer : String
  country_code : String
  vat_number : String
  amount : Amt
  transaction_type : String
  is_blank_vat : Bool
  is_total_line : Bool
  is_suspicious : Bool
  suspicion_reason : Option VatReason
  deriving DecidableEq

/-- Line number: the value of the `line` column when present, else the
1-based row position. -/
def rowLineNumber (i : ℕ) (row : Row) : String :=
  match row.line with
  | some s => s
  | none => toString (i + 1)

/-- Customer cell, empty when missing. -/
def rowCustomer (row : Row) : String :=
  row.customer.getD ""

/-- Country/VAT split of the VAT cell. -/
def rowExtract (row : Row) : String × String :=
  extractCountryCode (row.vat.getD "")

/-- The resolved VAT number (country prefix stripped). -/
def rowVatNum (row : Row) : String :=
  (rowExtract row).2

/-- The resolved country code: the prefix extracted from the VAT cell
if any, else the dedicated country column. -/
def rowCountry (row : Row) : String :=
  if (rowExtract row).1 != "" then (rowExtract row).1 else row.country.getD ""

/-- The amount block of the loop: blank is 0; otherwise parse, retrying
with `','` replaced by `'.'`; `none` means both attempts failed and the
row is skipped with a warning. -/
def rowAmountOf (row : Row) : Option Amt :=
  match row.amountCell with
  | .na => some Amt.zero
  | .num q => some q
  | .str s =>
    match pyFloat s with
    | some q => some q
    | none =>
      match pyFloat (strReplaceChar ',' "." s) with
      | some q => some q
      | none => none

/-- Rendering of the raw cell for the skip warning (`str(amount_val)`;
the numeric case, which can never fail to parse, is abbreviated). -/
def amountCellStr : AmountCell → String
  | .na => "nan"
  | .num q => toString q.num ++ "/" ++ toString q.den
  | .str s => s

/-- The SERVICES-indicating tokens of the source. -/
def servicesTokens : List String :=
  ["1", "yes", "y", "true", "s", "service", "other services", "other service", "services"]

/-- The GOODS-indicating tokens of the source. -/
def goodsTokens : List String :=
  ["0", "no", "n", "false", "l", "goods", "good", "supply", "supplies"]

/-- Transaction-type classification: default `"L"`, promoted by the
token sets. -/
def rowType (row : Row) : String :=
  match row.ttype with
  | none => "L"
  | some t =>
    let tt := strLower (pyStrip t)
    if servicesTokens.contains tt then "S"
    else if goodsTokens.contains tt then "L"
    else "L"

/-- The total-line text test: stripped, lowered, equal to or containing
`"total"`. -/
def containsTotal (s : String) : Bool :=
  let lv := strLower (pyStrip s)
  lv == "total" || listHas "total".data lv.data

/-- Total-line detection over the `line` column and the customer
column. -/
def rowIsTotal (row : Row) : Bool :=
  (match row.line with | some s => containsTotal s | none => false)
  || (match row.customer with | some s => containsTotal s | none => false)

/-- Blank-VAT test (`not vat_number or vat_number.strip() == ''`). -/
def rowIsBlank (row : Row) : Bool :=
  rowVatNum row == "" || pyStrip (rowVatNum row) == ""

/-- The validation step: run only on rows that are neither blank nor
total lines. -/
def rowSusp (row : Row) : Bool × Option VatReason :=
  if !rowIsBlank row && !rowIsTotal row then
    match validateVat (rowCountry row) (rowVatNum row) with
    | (true, _) => (false, none)
    | (false, r) => (true, r)
  else (false, none)

/-- The transaction dict built for one row with parsed amount
`amount`. -/
def rowTransaction (i : ℕ) (row : Row) (amount : Amt) : Transaction :=
  { line_number := rowLineNumber i row
    customer := rowCustomer row
    country_code := strUpper (rowCountry row)
    vat_number := ⟨replChar ' ' [] (rowVatNum row).data⟩
    amount := amount
    transaction_type := strUpper (rowType row)
    is_blank_vat := rowIsBlank row && !rowIsTotal row
    is_total_line := rowIsTotal row
    is_suspicious := (rowSusp row).1
    suspicion_reason := (rowSusp row).2 }

/-- What one iteration of the `process_data` loop does with its row.
The loop body never reads the accumulators, so it factors into this
outcome followed by `applyOutcome`. -/
inductive RowOutcome where
  | badAmount (warning : String)
  | blankVat (t : Transaction)
  | totalLine
  | invalidRow (t : Transaction) (lineNumber : String)
  | okRow (t : Transaction) (rawCC rawVat : String)
  deriving DecidableEq

/-- The body of the `process_data` loop for row `row` at dataframe
index `i`, following the branch order of the source: amount parse failure →
skip with warning; blank (and not total) → blank bucket; total →
skipped; missing country or zero amount → invalid bucket; otherwise a
normal/suspicious transaction that is aggregated under the raw
`country_code`/`vat_number` pair. -/
def rowEval (i : ℕ) (row : Row) : RowOutcome :=
  match rowAmountOf row with
  | none => .badAmount ("Invalid amount in row " ++ rowLineNumber i row ++ ": "
      ++ amountCellStr row.amountCell)
  | some amount =>
    let t := rowTransaction i row amount
    if rowIsBlank row && !rowIsTotal row then .blankVat t
    else if rowIsTotal row then .totalLine
    else if rowCountry row == "" || amount.isZero then .invalidRow t (rowLineNumber i row)
    else .okRow t (rowCountry row) (rowVatNum row)

/-- One entry of the `aggregated_by_vat` dictionary. -/
structure AggData where
  country_code : String
  vat_number : String
  customer_numbers : List String
  amount : Amt
  transaction_type : String
  line_numbers : List String
  is_valid : Bool
  is_suspicious : Bool
  suspicion_reason : Option VatReason
  deriving DecidableEq

/-- The defaultdict default entry. -/
def emptyAgg : AggData :=
  ⟨"", "", [], Amt.zero, "", [], true, false, none⟩

/-- Python `set.add` modelled on an insertion-ordered duplicate-free
list. -/
def setAdd (x : String) (l : List String) : List String :=
  if l.contains x then l else l ++ [x]

/-- The mutations lines 410–425 of `process_data` apply to one
aggregate entry for one incoming row: overwrite the raw key fields, add
the customer and line references, sum the amount, promote the type to
`"S"` (sticky), and OR the suspicion flag (keeping the latest
reason). -/
def mergeAgg (d : AggData) (rawCC rawVat : String) (t : Transaction) : AggData :=
  { country_code := rawCC
    vat_number := rawVat
    customer_numbers := setAdd t.customer d.customer_numbers
    amount := d.amount.add t.amount
    transaction_type :=
      if t.transaction_type == "S" then "S"
      else if d.transaction_type == "" then t.transaction_type
      else d.transaction_type
    line_numbers := setAdd t.line_number d.line_numbers
    is_valid := d.is_valid
    is_suspicious := d.is_suspicious || t.is_suspicious
    suspicion_reason := if t.is_suspicious then t.suspicion_reason else d.suspicion_reason }

/-- The aggregation key string `f"{country_code}:{vat_number}"`. -/
def aggKey (rawCC rawVat : String) : String :=
  rawCC ++ ":" ++ rawVat

/-- Update of the insertion-ordered aggregation dictionary at key `k`
(the defaultdict creates the entry on first access). -/
def aggUpdate (A : List (String × AggData)) (k rawCC rawVat : String) (t : Transaction) :
    List (String × AggData) :=
  match A.lookup k with
  | some _ => A.map fun p => if p.1 = k then (p.1, mergeAgg p.2 rawCC rawVat t) else p
  | none => A ++ [(k, mergeAgg emptyAgg rawCC rawVat t)]

/-- The mutable accumulators of `process_data`. -/
structure ProcState where
  total_rows : ℕ
  valid_transactions : List Transaction
  blank_vat_rows : List Transaction
  invalid_rows : List (String × String)
  suspicious_vat_rows : List Transaction
  total_amount : Amt
  warnings : List String
  aggregated : List (String × AggData)
  deriving DecidableEq

/-- Accumulators before the loop. -/
def initState : ProcState :=
  ⟨0, [], [], [], [], Amt.zero, [], []⟩

/-- The fixed reason string of the invalid bucket. -/
def invalidReason : String :=
  "Missing country code or zero amount"

/-- Apply the outcome of one row to the accumulators, exactly as the
corresponding branch of the loop does. -/
def applyOutcome (st : ProcState) : RowOutcome → ProcState
  | .badAmount w =>
    { st with total_rows := st.total_rows + 1, warnings := st.warnings ++ [w] }
  | .blankVat t =>
    { st with total_rows := st.total_rows + 1, blank_vat_rows := st.blank_vat_rows ++ [t] }
  | .totalLine =>
    { st with total_rows := st.total_rows + 1 }
  | .invalidRow t ln =>
    { st with total_rows := st.total_rows + 1
              suspicious_vat_rows :=
                st.suspicious_vat_rows ++ (if t.is_suspicious then [t] else [])
              invalid_rows := st.invalid_rows ++ [(ln, invalidReason)] }
  | .okRow t rawCC rawVat =>
    { st with total_rows := st.total_rows + 1
              suspicious_vat_rows :=
                st.suspicious_vat_rows ++ (if t.is_suspicious then [t] else [])
              valid_transactions := st.valid_transactions ++ [t]
              total_amount := st.total_amount.add t.amount
              aggregated := aggUpdate st.aggregated (aggKey rawCC rawVat) rawCC rawVat t }

/-- The full loop of `process_data` over the rows. -/
def processState (rows : List Row) : ProcState :=
  rows.enum.foldl (fun st p => applyOutcome st (rowEval p.1 p.2)) initState

/-- One record of the `aggregated_transactions` output list. -/
structure AggTransaction where
  country_code : String
  vat_number : String
  amount : Amt
  transaction_type : String
  customer : String
  line_numbers : String
  multiple_customers : Bool
  is_blank_vat : Bool
  is_suspicious : Bool
  suspicion_reason : Option VatReason
  deriving DecidableEq

/-- Conversion of one dictionary entry into an output record. -/
def renderAgg (d : AggData) : AggTransaction :=
  { country_code := d.country_code
    vat_number := d.vat_number
    amount := round2 d.amount
    transaction_type := d.transaction_type
    customer := joinWith ", " (sortStrings (d.customer_numbers.filter (· != "")))
    line_numbers := joinWith ", " (sortStrings d.line_numbers)
    multiple_customers := decide (d.customer_numbers.length > 1)
    is_blank_vat := false
    is_suspicious := d.is_suspicious
    suspicion_reason := d.suspicion_reason }

/-- The metrics dict. -/
structure Metrics where
  total_rows : ℕ
  valid_transactions : ℕ
  blank_vat_entries : ℕ
  suspicious_vat_entries : ℕ
  invalid_rows : ℕ
  combined_transactions : ℕ
  total_amount : Amt
  deriving DecidableEq

/-- The value `process_data` returns on success (the error list is
always empty in the embedded fragment: per-row exceptions cannot occur
once cells are plain data). -/
structure ProcessResult where
  original_transactions : List Transaction
  aggregated_transactions : List AggTransaction
  blank_vat_entries : List Transaction
  suspicious_vat_entries : List Transaction
  invalid_rows : List (String × String)
  warnings : List String
  metrics : Metrics
  deriving DecidableEq

/-- Model of `ExcelProcessor.process_data` on an already-mapped row list. -/
def processData (rows : List Row) : ProcessResult :=
  let st := processState rows
  let aggregated := st.aggregated.map fun p => renderAgg p.2
  { original_transactions := st.valid_transactions
    aggregated_transactions := aggregated
    blank_vat_entries := st.blank_vat_rows
    suspicious_vat_entries := st.suspicious_vat_rows
    invalid_rows := st.invalid_rows
    warnings := st.warnings
    metrics :=
      { total_rows := st.total_rows
        valid_transactions := st.valid_transactions.length
        blank_vat_entries := st.blank_vat_rows.length
        suspicious_vat_entries := st.suspicious_vat_rows.length
        invalid_rows := st.invalid_rows.length
        combined_transactions := aggregated.length
        total_amount := round2 st.total_amount } }

/-- One transaction dict of `VIESGenerator` (`create_generator` later
attaches the optional fields). -/
structure GTransaction where
  country_code : String
  vat_number : String
  amount : Amt
  transaction_type : String
  customer : Option String := none
  line_numbers : Option String := none
  multiple_customers : Option Bool := none
  deriving DecidableEq

/-- The `VIESGenerator` object. -/
structure Generator where
  company_name : String
  tax_number : String
  reporting_period : String
  transactions : List GTransaction
  deriving DecidableEq

/-- Model of `VIESGenerator.__init__`. -/
def mkGenerator (company tax period : String) : Generator :=
  ⟨company, tax, period, []⟩

/-- Model of `VIESGenerator.add_transaction`. -/
def addTransaction (g : Generator) (cc vat : String) (amount : Amt) (ttype : String) :
    Generator :=
  { g with transactions := g.transactions ++
      [{ country_code := strUpper cc
         vat_number := ⟨replChar ' ' [] vat.data⟩
         amount := round2 amount
         transaction_type := strUpper ttype }] }

/-- Python `csv.writer` minimal quoting: a field is quoted exactly when
it contains the delimiter `';'`, the quote character, or a line
terminator character. -/
def needsQuote (f : String) : Bool :=
  f.data.any fun c => c == ';' || c == '"' || c == '\n' || c == '\r'

/-- Render one field under minimal quoting (inner quotes doubled). -/
def csvField (f : String) : String :=
  if needsQuote f then "\"" ++ strReplaceChar '"' "\"\"" f ++ "\"" else f

/-- One `writer.writerow` record with delimiter `';'` (without the
trailing line terminator). -/
def csvRow (fields : List String) : String :=
  joinWith ";" (fields.map csvField)

/-- Model of `VIESGenerator.generate_file`: the emitted records, one string per
line; `none` when the reporting period does not split into exactly
`year` and `month` (where the tuple unpacking of the source raises). -/
def generateFile (g : Generator) : Option (List String) :=
  match strSplitChar '-' g.reporting_period with
  | [year, month] =>
    some (csvRow ["Finanzamt", g.company_name, g.tax_number, month ++ "/" ++ year]
      :: g.transactions.map fun t =>
        csvRow [t.country_code ++ t.vat_number,
                strReplaceChar '.' "," (formatAmount2 t.amount),
                t.transaction_type])
  | _ => none

/-- Modelled from the spec: `VIESGenerator.update_vat_id` is invoked by
the review workflow (`edit_vat` in `app.py`) but its definition is not
among the provided sources.  Following the contract in the spec — given a
line/record reference and a corrected `(country_code, vat_number)`,
correct the previously flagged transaction in place, without re-running
the pipeline and without touching anything else — it replaces the two
key fields of the transaction(s) whose line reference matches. -/
def update_vat_id (g : Generator) (lineRef countryCode vatNumber : String) : Generator :=
  { g with transactions := g.transactions.map fun t =>
      if t.line_numbers == some lineRef then
        { t with country_code := countryCode, vat_number := vatNumber }
      else t }

/-- The synonym table of `map_columns`, in source order. -/
def columnMapping : List (String × List String) :=
  [("line", ["line", "line number", "row", "row number", "#"]),
   ("customer", ["customer", "customer number", "customer no", "customer id",
                 "customer code", "client number"]),
   ("country_code", ["country", "country code", "country indicator", "country_indicator"]),
   ("vat_number", ["vat", "vat number", "vat no", "customer\x27s vat number", "customer vat"]),
   ("amount", ["amount", "value", "eur", "euro", "value of supplies", "value of supplies eur"]),
   ("transaction_type", ["type", "transaction type", "service type", "other services"])]

/-- Case-insensitive exact header match against a synonym list. -/
def headerMatches (poss : List String) (col : String) : Bool :=
  poss.any fun p => strLower p == strLower col

/-- The by-name matching double loop of `map_columns`: for each
canonical field in table order, the first matching source column. -/
def buildMapping : List (String × List String) → List String → List (String × String)
  | [], _ => []
  | (std, poss) :: rest, cols =>
    (match cols.find? (headerMatches poss) with
     | some c => [(std, c)]
     | none => []) ++ buildMapping rest cols

/-- The by-name phase of `map_columns`. -/
def mapColumnsName (cols : List String) : List (String × String) :=
  buildMapping columnMapping cols

/-- The expected canonical columns. -/
def expectedCols : List String :=
  ["line", "customer", "country_code", "vat_number", "amount", "transaction_type"]

/-- The positional-fallback table of `map_columns`. -/
def colPositions : List (ℕ × String) :=
  [(0, "line"), (1, "customer"), (2, "country_code"), (3, "vat_number"),
   (4, "amount"), (5, "transaction_type")]

/-- Model of `ExcelProcessor.map_columns` on the (already lower-cased) header
list: by-name matching, then, if any expected field is missing and the
sheet has at least 6 columns, positional fallback for the fields still
unmapped. -/
def mapColumns (cols : List String) : List (String × String) :=
  let m := mapColumnsName cols
  let missing := expectedCols.filter fun f => (m.lookup f).isNone
  if !missing.isEmpty && cols.length ≥ 6 then
    colPositions.foldl (fun acc p =>
      if p.1 < cols.length ∧ (acc.lookup p.2).isNone then acc ++ [(p.2, cols.getD p.1 "")]
      else acc) m
  else m


/-! ### Derived views of the loop -/

/-- One step of the `process_data` fold. -/
def procStep (st : ProcState) (p : ℕ × Row) : ProcState :=
  applyOutcome st (rowEval p.1 p.2)

/-- The rows (with their raw aggregation key parts) that reach the
aggregation branch, in order. -/
def okContribs (l : List (ℕ × Row)) : List (Transaction × String × String) :=
  l.filterMap fun p =>
    match rowEval p.1 p.2 with
    | .okRow t rawCC rawVat => some (t, rawCC, rawVat)
    | _ => none

/-- The aggregated (normal and suspicious) rows of a run. -/
def contribs (rows : List Row) : List (Transaction × String × String) :=
  okContribs rows.enum

/-- The key of one aggregated row. -/
def contribKey (c : Transaction × String × String) : String :=
  aggKey c.2.1 c.2.2

/-- One step of the aggregation dictionary fold. -/
def aggFoldStep (A : List (String × AggData)) (c : Transaction × String × String) :
    List (String × AggData) :=
  aggUpdate A (contribKey c) c.2.1 c.2.2 c.1

/-- The amount stored for key `k` (zero when the key is absent). -/
def amountAt (A : List (String × AggData)) (k : String) : Amt :=
  ((A.lookup k).map (fun d => d.amount)).getD Amt.zero

/-- Sum of the amounts of the contributions with key `k`. -/
def sumFor (k : String) (C : List (Transaction × String × String)) : Amt :=
  amtSum ((C.filter fun c => contribKey c == k).map fun c => c.1.amount)

/-- Insertion-ordered first-occurrence key list of a contribution
stream (the shape of the dictionary key set). -/
def dedupKeys (C : List (Transaction × String × String)) : List String :=
  C.foldl (fun ks c => if contribKey c ∈ ks then ks else ks ++ [contribKey c]) []

/-- Is any contribution with key `k` typed `"S"`? -/
def hasSFor (k : String) (C : List (Transaction × String × String)) : Bool :=
  C.any fun c => contribKey c == k && c.1.transaction_type == "S"

/-! ### Association-list lemmas -/

theorem lookup_eq_none_iff {β : Type} (A : List (String × β)) (k : String) :
    A.lookup k = none ↔ k ∉ A.map Prod.fst := by
  induction A with
  | nil => simp
  | cons p rest ih =>
    obtain ⟨a, b⟩ := p
    by_cases h : k = a
    · subst h
      simp [List.lookup]
    · have hb : (k == a) = false := by simp [h]
      simp [List.lookup, hb, ih, h]

theorem lookup_append_left {β : Type} (A B : List (String × β)) (k : String) (v : β)
    (h : A.lookup k = some v) : (A ++ B).lookup k = some v := by
  induction A with
  | nil => simp [List.lookup] at h
  | cons p rest ih =>
    obtain ⟨a, b⟩ := p
    simp only [List.cons_append]
    by_cases hak : k = a
    · subst hak
      simp only [List.lookup, beq_self_eq_true] at h ⊢
      exact h
    · have hb : (k == a) = false := by simp [hak]
      simp only [List.lookup, hb] at h ⊢
      exact ih h

theorem lookup_append_right {β : Type} (A B : List (String × β)) (k : String)
    (h : A.lookup k = none) : (A ++ B).lookup k = B.lookup k := by
  induction A with
  | nil => simp
  | cons p rest ih =>
    obtain ⟨a, b⟩ := p
    simp only [List.cons_append]
    by_cases hak : k = a
    · subst hak
      simp [List.lookup] at h
    · have hb : (k == a) = false := by simp [hak]
      simp only [List.lookup, hb] at h ⊢
      exact ih h

theorem lookup_map_update {β : Type} (A : List (String × β)) (k k' : String) (g : β → β) :
    (A.map fun p => if p.1 = k then (p.1, g p.2) else p).lookup k' =
      if k' = k then (A.lookup k').map g else A.lookup k' := by
  induction A with
  | nil => simp [List.lookup]
  | cons p rest ih =>
    obtain ⟨a, b⟩ := p
    simp only [List.map_cons]
    by_cases hak : a = k
    · subst hak
      simp only [if_pos rfl]
      by_cases hk' : k' = a
      · subst hk'
        simp [List.lookup, ih]
      · have hb : (k' == a) = false := by simp [hk']
        simp [List.lookup, hb, ih, hk']
    · rw [if_neg hak]
      by_cases hk' : k' = a
      · subst hk'
        have hne : ¬k' = k := hak
        simp [List.lookup, ih, hne]
      · have hb : (k' == a) = false := by simp [hk']
        simp [List.lookup, hb, ih]

theorem lookup_mem {β : Type} (A : List (String × β)) (k : String) (v : β)
    (h : A.lookup k = some v) : (k, v) ∈ A := by
  induction A with
  | nil => simp [List.lookup] at h
  | cons p rest ih =>
    obtain ⟨a, b⟩ := p
    by_cases hak : k = a
    · subst hak
      simp only [List.lookup, beq_self_eq_true] at h
      have hbv : b = v := Option.some_inj.mp h
      subst hbv
      exact List.mem_cons_self _ _
    · have hb : (k == a) = false := by simp [hak]
      simp only [List.lookup, hb] at h
      exact List.mem_cons_of_mem _ (ih h)

/-! ### `aggUpdate` lemmas -/

theorem aggUpdate_lookup_self (A : List (String × AggData)) (k rawCC rawVat : String)
    (t : Transaction) :
    (aggUpdate A k rawCC rawVat t).lookup k
      = some (mergeAgg ((A.lookup k).getD emptyAgg) rawCC rawVat t) := by
  unfold aggUpdate
  cases h : A.lookup k with
  | none =>
    simp only [h, Option.getD_none]
    rw [lookup_append_right _ _ _ h]
    simp [List.lookup]
  | some d =>
    simp only [h, Option.getD_some]
    have hmap := lookup_map_update A k k (fun x => mergeAgg x rawCC rawVat t)
    simp only [if_pos rfl, h] at hmap
    simpa using hmap

theorem aggUpdate_lookup_ne (A : List (String × AggData)) (k k' rawCC rawVat : String)
    (t : Transaction) (h : k' ≠ k) :
    (aggUpdate A k rawCC rawVat t).lookup k' = A.lookup k' := by
  unfold aggUpdate
  cases hk : A.lookup k with
  | none =>
    cases hk' : A.lookup k' with
    | none =>
      rw [lookup_append_right _ _ _ hk']
      have hb : (k' == k) = false := by simp [h]
      simp [List.lookup, hb]
    | some v =>
      rw [lookup_append_left _ _ _ _ hk']
  | some d =>
    have hmap := lookup_map_update A k k' (fun x => mergeAgg x rawCC rawVat t)
    rw [if_neg h] at hmap
    exact hmap

theorem aggUpdate_fsts (A : List (String × AggData)) (k rawCC rawVat : String)
    (t : Transaction) :
    (aggUpdate A k rawCC rawVat t).map Prod.fst
      = if k ∈ A.map Prod.fst then A.map Prod.fst else A.map Prod.fst ++ [k] := by
  unfold aggUpdate
  cases h : A.lookup k with
  | none =>
    have : k ∉ A.map Prod.fst := (lookup_eq_none_iff A k).mp h
    simp [this]
  | some d =>
    have hm : k ∈ A.map Prod.fst := by
      by_contra hc
      rw [(lookup_eq_none_iff A k).mpr hc] at h
      exact Option.noConfusion h
    simp only [hm, if_true, List.map_map]
    apply List.map_congr_left
    intro p _
    by_cases hp : p.1 = k
    · simp [hp]
    · simp [hp]

/-! ### `Amt` algebra -/

theorem Amt.add_zero' (a : Amt) : a.add Amt.zero = a := by
  cases a
  simp [Amt.add, Amt.zero]

theorem Amt.zero_add' (a : Amt) : Amt.zero.add a = a := by
  cases a
  simp [Amt.add, Amt.zero]

theorem Amt.add_assoc' (a b c : Amt) : (a.add b).add c = a.add (b.add c) := by
  cases a; cases b; cases c
  simp only [Amt.add, Amt.mk.injEq]
  constructor
  · push_cast
    ring
  · ring


theorem aggUpdate_fsts_mem (A : List (String × AggData)) (k k' rawCC rawVat : String)
    (t : Transaction) :
    k' ∈ (aggUpdate A k rawCC rawVat t).map Prod.fst
      ↔ (k' ∈ A.map Prod.fst ∨ k' = k) := by
  rw [aggUpdate_fsts]
  by_cases hm : k ∈ A.map Prod.fst
  · simp only [hm, if_true]
    constructor
    · exact Or.inl
    · rintro (h | h)
      · exact h
      · exact h ▸ hm
  · simp [hm]

/-! ### Fold characterisations of the loop -/

theorem foldl_procStep_valid (l : List (ℕ × Row)) : ∀ st : ProcState,
    (l.foldl procStep st).valid_transactions
      = st.valid_transactions ++ (okContribs l).map (fun c => c.1) := by
  induction l with
  | nil => intro st; simp [okContribs]
  | cons p rest ih =>
    intro st
    rw [List.foldl_cons, ih]
    unfold okContribs
    rw [List.filterMap_cons]
    cases h : rowEval p.1 p.2 with
    | badAmount w => simp [procStep, applyOutcome, h, okContribs]
    | blankVat t => simp [procStep, applyOutcome, h, okContribs]
    | totalLine => simp [procStep, applyOutcome, h, okContribs]
    | invalidRow t ln => simp [procStep, applyOutcome, h, okContribs]
    | okRow t rcc rvat => simp [procStep, applyOutcome, h, okContribs]

theorem foldl_procStep_aggregated (l : List (ℕ × Row)) : ∀ st : ProcState,
    (l.foldl procStep st).aggregated = (okContribs l).foldl aggFoldStep st.aggregated := by
  induction l with
  | nil => intro st; simp [okContribs]
  | cons p rest ih =>
    intro st
    rw [List.foldl_cons, ih]
    unfold okContribs
    rw [List.filterMap_cons]
    cases h : rowEval p.1 p.2 with
    | badAmount w => simp [procStep, applyOutcome, h, okContribs]
    | blankVat t => simp [procStep, applyOutcome, h, okContribs]
    | totalLine => simp [procStep, applyOutcome, h, okContribs]
    | invalidRow t ln => simp [procStep, applyOutcome, h, okContribs]
    | okRow t rcc rvat =>
      simp [procStep, applyOutcome, h, okContribs, aggFoldStep, contribKey]

/-! ### Aggregation-fold lemmas -/

theorem aggFold_keys (C : List (Transaction × String × String)) :
    ∀ A : List (String × AggData),
    (C.foldl aggFoldStep A).map Prod.fst
      = C.foldl (fun ks c => if contribKey c ∈ ks then ks else ks ++ [contribKey c])
          (A.map Prod.fst) := by
  induction C with
  | nil => intro A; rfl
  | cons c rest ih =>
    intro A
    rw [List.foldl_cons, List.foldl_cons, ih]
    congr 1
    show (aggUpdate A (contribKey c) c.2.1 c.2.2 c.1).map Prod.fst = _
    rw [aggUpdate_fsts]

theorem aggFold_nodup (C : List (Transaction × String × String)) :
    ∀ A : List (String × AggData),
    (A.map Prod.fst).Nodup → ((C.foldl aggFoldStep A).map Prod.fst).Nodup := by
  induction C with
  | nil => intro A h; exact h
  | cons c rest ih =>
    intro A h
    rw [List.foldl_cons]
    apply ih
    show ((aggUpdate A (contribKey c) c.2.1 c.2.2 c.1).map Prod.fst).Nodup
    rw [aggUpdate_fsts]
    by_cases hm : contribKey c ∈ A.map Prod.fst
    · simpa [hm] using h
    · simp [hm, List.nodup_append, h]

theorem aggFold_mem (C : List (Transaction × String × String)) :
    ∀ (A : List (String × AggData)) (k : String),
    k ∈ (C.foldl aggFoldStep A).map Prod.fst
      ↔ (k ∈ A.map Prod.fst ∨ ∃ c ∈ C, contribKey c = k) := by
  induction C with
  | nil => intro A k; simp
  | cons c rest ih =>
    intro A k
    rw [List.foldl_cons, ih]
    show k ∈ (aggUpdate A (contribKey c) c.2.1 c.2.2 c.1).map Prod.fst ∨ _ ↔ _
    rw [aggUpdate_fsts_mem]
    constructor
    · rintro ((h | h) | h)
      · exact Or.inl h
      · exact Or.inr ⟨c, List.mem_cons_self _ _, h.symm⟩
      · obtain ⟨c', hc', hk⟩ := h
        exact Or.inr ⟨c', List.mem_cons_of_mem _ hc', hk⟩
    · rintro (h | ⟨c', hc', hk⟩)
      · exact Or.inl (Or.inl h)
      · rcases List.mem_cons.mp hc' with h' | h'
        · exact Or.inl (Or.inr (h' ▸ hk.symm))
        · exact Or.inr ⟨c', h', hk⟩

theorem aggFold_amount (C : List (Transaction × String × String)) :
    ∀ (A : List (String × AggData)) (k : String),
    amountAt (C.foldl aggFoldStep A) k = (amountAt A k).add (sumFor k C) := by
  induction C with
  | nil => intro A k; simp [sumFor, amtSum, Amt.add_zero']
  | cons c rest ih =>
    intro A k
    rw [List.foldl_cons, ih]
    by_cases hk : contribKey c = k
    · have h1 : amountAt (aggFoldStep A c) k = (amountAt A k).add c.1.amount := by
        show amountAt (aggUpdate A (contribKey c) c.2.1 c.2.2 c.1) k = _
        rw [hk]
        unfold amountAt
        rw [aggUpdate_lookup_self]
        cases hA : A.lookup k with
        | none => simp [mergeAgg, emptyAgg, Amt.zero_add', Amt.add_zero']
        | some d => simp [mergeAgg]
      have h2 : sumFor k (c :: rest) = (c.1.amount).add (sumFor k rest) := by
        unfold sumFor
        have hb : (contribKey c == k) = true := by simp [hk]
        simp [List.filter_cons, hb, amtSum]
      rw [h1, h2, Amt.add_assoc']
    · have h1 : amountAt (aggFoldStep A c) k = amountAt A k := by
        show amountAt (aggUpdate A (contribKey c) c.2.1 c.2.2 c.1) k = _
        unfold amountAt
        rw [aggUpdate_lookup_ne _ _ _ _ _ _ (fun hh => hk hh.symm)]
      have h2 : sumFor k (c :: rest) = sumFor k rest := by
        unfold sumFor
        have hb : (contribKey c == k) = false := by simp [hk]
        simp [List.filter_cons, hb]
      rw [h1, h2]

theorem mergeAgg_type_S (d : AggData) (rawCC rawVat : String) (t : Transaction) :
    ((mergeAgg d rawCC rawVat t).transaction_type = "S")
      ↔ (d.transaction_type = "S" ∨ t.transaction_type = "S") := by
  by_cases hts : t.transaction_type = "S"
  · simp [mergeAgg, hts]
  · have htb : (t.transaction_type == "S") = false := by simp [hts]
    by_cases hde : d.transaction_type = ""
    · have hdb : (d.transaction_type == "") = true := by simp [hde]
      simp [mergeAgg, htb, hdb, hts, hde]
    · have hdb : (d.transaction_type == "") = false := by simp [hde]
      simp [mergeAgg, htb, hdb, hts]

theorem mergeAgg_type_sticky (d : AggData) (rawCC rawVat : String) (t : Transaction)
    (h : d.transaction_type = "S") :
    (mergeAgg d rawCC rawVat t).transaction_type = "S" :=
  (mergeAgg_type_S d rawCC rawVat t).mpr (Or.inl h)

theorem aggUpdate_type_S (A : List (String × AggData)) (kc k rawCC rawVat : String)
    (t : Transaction) :
    ((aggUpdate A kc rawCC rawVat t).lookup k).map (fun d => d.transaction_type) = some "S"
      ↔ ((A.lookup k).map (fun d => d.transaction_type) = some "S"
          ∨ (kc = k ∧ t.transaction_type = "S")) := by
  by_cases hk : k = kc
  · subst hk
    rw [aggUpdate_lookup_self]
    simp only [Option.map_some']
    rw [Option.some_inj, mergeAgg_type_S]
    cases hA : A.lookup k with
    | none => simp [emptyAgg]
    | some d => simp
  · rw [aggUpdate_lookup_ne _ _ _ _ _ _ hk]
    have hne : ¬(kc = k ∧ t.transaction_type = "S") := fun hh => hk hh.1.symm
    simp [hne]

theorem aggFold_type_S (C : List (Transaction × String × String)) :
    ∀ (A : List (String × AggData)) (k : String),
    ((C.foldl aggFoldStep A).lookup k).map (fun d => d.transaction_type) = some "S"
      ↔ ((A.lookup k).map (fun d => d.transaction_type) = some "S" ∨ hasSFor k C = true) := by
  induction C with
  | nil => intro A k; simp [hasSFor]
  | cons c rest ih =>
    intro A k
    rw [List.foldl_cons, ih]
    show ((aggUpdate A (contribKey c) c.2.1 c.2.2 c.1).lookup k).map _ = some "S" ∨ _ ↔ _
    rw [aggUpdate_type_S]
    simp only [hasSFor, List.any_cons, Bool.or_eq_true, Bool.and_eq_true, beq_iff_eq]
    tauto

theorem mergeAgg_type_LS (d : AggData) (rawCC rawVat : String) (t : Transaction)
    (hd : d.transaction_type = "" ∨ d.transaction_type = "L" ∨ d.transaction_type = "S")
    (ht : t.transaction_type = "L" ∨ t.transaction_type = "S") :
    (mergeAgg d rawCC rawVat t).transaction_type = "L"
      ∨ (mergeAgg d rawCC rawVat t).transaction_type = "S" := by
  rcases ht with ht | ht
  · have htb : (t.transaction_type == "S") = false := by simp [ht]
    rcases hd with hd | hd | hd
    · have hdb : (d.transaction_type == "") = true := by simp [hd]
      simp [mergeAgg, htb, hdb, ht]
    · have hdb : (d.transaction_type == "") = false := by simp [hd]
      simp [mergeAgg, htb, hdb, hd]
    · have hdb : (d.transaction_type == "") = false := by simp [hd]
      simp [mergeAgg, htb, hdb, hd]
  · have htb : (t.transaction_type == "S") = true := by simp [ht]
    simp [mergeAgg, htb]

theorem aggFold_type_LS (C : List (Transaction × String × String)) :
    ∀ (A : List (String × AggData)) (k : String) (d : AggData),
    (∀ c ∈ C, c.1.transaction_type = "L" ∨ c.1.transaction_type = "S") →
    (∀ d', A.lookup k = some d' →
      d'.transaction_type = "L" ∨ d'.transaction_type = "S") →
    (C.foldl aggFoldStep A).lookup k = some d →
    d.transaction_type = "L" ∨ d.transaction_type = "S" := by
  induction C with
  | nil =>
    intro A k d _ hA h
    exact hA d h
  | cons c rest ih =>
    intro A k d hC hA h
    rw [List.foldl_cons] at h
    refine ih _ _ _ (fun c' hc' => hC c' (List.mem_cons_of_mem _ hc')) ?_ h
    intro d' hd'
    by_cases hk : k = contribKey c
    · subst hk
      unfold aggFoldStep at hd'
      rw [aggUpdate_lookup_self] at hd'
      have hd'' := Option.some_inj.mp hd'
      rw [← hd'']
      apply mergeAgg_type_LS
      · cases hA2 : A.lookup (contribKey c) with
        | none => simp [emptyAgg]
        | some d2 =>
          simp only [Option.getD_some]
          exact Or.inr (hA d2 hA2)
      · exact hC c (List.mem_cons_self _ _)
    · unfold aggFoldStep at hd'
      rw [aggUpdate_lookup_ne _ _ _ _ _ _ hk] at hd'
      exact hA d' hd'


/-! ### Row-level lemmas -/

theorem rowType_LS (row : Row) : rowType row = "L" ∨ rowType row = "S" := by
  unfold rowType
  cases row.ttype with
  | none => exact Or.inl rfl
  | some t =>
    show (if servicesTokens.contains (strLower (pyStrip t)) then "S"
        else if goodsTokens.contains (strLower (pyStrip t)) then "L" else "L") = "L"
      ∨ (if servicesTokens.contains (strLower (pyStrip t)) then "S"
        else if goodsTokens.contains (strLower (pyStrip t)) then "L" else "L") = "S"
    by_cases h1 : servicesTokens.contains (strLower (pyStrip t)) = true
    · rw [if_pos h1]; exact Or.inr rfl
    · rw [if_neg h1]
      by_cases h2 : goodsTokens.contains (strLower (pyStrip t)) = true
      · rw [if_pos h2]; exact Or.inl rfl
      · rw [if_neg h2]; exact Or.inl rfl

theorem rowTransaction_type_LS (i : ℕ) (row : Row) (q : Amt) :
    (rowTransaction i row q).transaction_type = "L"
      ∨ (rowTransaction i row q).transaction_type = "S" := by
  show strUpper (rowType row) = "L" ∨ strUpper (rowType row) = "S"
  rcases rowType_LS row with h | h <;> rw [h]
  · exact Or.inl (by decide)
  · exact Or.inr (by decide)

theorem rowEval_ok_elim (i : ℕ) (row : Row) (t : Transaction) (rawCC rawVat : String)
    (h : rowEval i row = .okRow t rawCC rawVat) :
    ∃ q, rowAmountOf row = some q ∧ t = rowTransaction i row q := by
  unfold rowEval at h
  cases ha : rowAmountOf row with
  | none => rw [ha] at h; exact absurd h (by simp)
  | some q =>
    rw [ha] at h
    simp only [] at h
    split at h
    · exact absurd h (by simp)
    · split at h
      · exact absurd h (by simp)
      · split at h
        · exact absurd h (by simp)
        · exact ⟨q, rfl, (by injection h with h1 _ _; exact h1.symm)⟩

theorem rowEval_ok_type (i : ℕ) (row : Row) (t : Transaction) (rawCC rawVat : String)
    (h : rowEval i row = .okRow t rawCC rawVat) :
    t.transaction_type = "L" ∨ t.transaction_type = "S" := by
  obtain ⟨q, _, ht⟩ := rowEval_ok_elim i row t rawCC rawVat h
  rw [ht]
  exact rowTransaction_type_LS i row q

theorem contribs_type_LS (rows : List Row) :
    ∀ c ∈ contribs rows, c.1.transaction_type = "L" ∨ c.1.transaction_type = "S" := by
  intro c hc
  unfold contribs okContribs at hc
  rw [List.mem_filterMap] at hc
  obtain ⟨p, _, hp⟩ := hc
  cases h : rowEval p.1 p.2 with
  | okRow t rcc rvat =>
    rw [h] at hp
    simp only [Option.some_inj] at hp
    rw [← hp]
    exact rowEval_ok_type p.1 p.2 t rcc rvat h
  | badAmount w => rw [h] at hp; exact absurd hp (by simp)
  | blankVat t => rw [h] at hp; exact absurd hp (by simp)
  | totalLine => rw [h] at hp; exact absurd hp (by simp)
  | invalidRow t ln => rw [h] at hp; exact absurd hp (by simp)

theorem processState_eq (rows : List Row) :
    processState rows = rows.enum.foldl procStep initState := rfl

theorem processState_aggregated (rows : List Row) :
    (processState rows).aggregated = (contribs rows).foldl aggFoldStep [] := by
  rw [processState_eq, foldl_procStep_aggregated]
  rfl

theorem processState_valid (rows : List Row) :
    (processState rows).valid_transactions = (contribs rows).map (fun c => c.1) := by
  rw [processState_eq, foldl_procStep_valid]
  rfl

/-! ### Repeated-digit-run lemmas -/

theorem digit_not_ws (c : Char) (h : c.isDigit = true) : c.isWhitespace = false := by
  by_contra hw
  have hw' : c.isWhitespace = true := by revert hw; cases c.isWhitespace <;> simp
  simp only [Char.isWhitespace, Bool.or_eq_true, decide_eq_true_eq, beq_iff_eq] at hw'
  rcases hw' with ((h' | h') | h') | h' <;> subst h' <;> exact absurd h (by decide)

theorem infix_dropWhile (p : Char → Bool) (r : List Char) (hr : ∀ x ∈ r, p x = false)
    (hne : r ≠ []) : ∀ l : List Char, r <:+: l → r <:+: l.dropWhile p := by
  intro l
  induction l with
  | nil => intro h; exact absurd (List.infix_nil.mp h) hne
  | cons a l ih =>
    intro h
    by_cases hpa : p a = true
    · rw [List.dropWhile_cons, if_pos hpa]
      apply ih
      rcases List.infix_cons_iff.mp h with hpre | hinf
      · cases r with
        | nil => exact absurd rfl hne
        | cons b r' =>
          obtain ⟨hb, _⟩ := List.cons_prefix_cons.mp hpre
          have hpb := hr b (List.mem_cons_self b r')
          rw [hb] at hpb
          exact absurd hpa (by simp [hpb])
      · exact hinf
    · rw [List.dropWhile_cons, if_neg hpa]
      exact h

theorem infix_stripList (r : List Char) (hr : ∀ x ∈ r, x.isWhitespace = false)
    (hne : r ≠ []) (l : List Char) (h : r <:+: l) : r <:+: stripList l := by
  unfold stripList
  have h1 : r <:+: l.dropWhile Char.isWhitespace := infix_dropWhile _ r hr hne l h
  have h2 : r.reverse <:+: (l.dropWhile Char.isWhitespace).reverse :=
    List.reverse_infix.mpr h1
  have hr' : ∀ x ∈ r.reverse, x.isWhitespace = false :=
    fun x hx => hr x (List.mem_reverse.mp hx)
  have hne' : r.reverse ≠ [] := by simpa using hne
  have h3 := infix_dropWhile Char.isWhitespace r.reverse hr' hne' _ h2
  have h4 := List.reverse_infix.mpr h3
  simpa using h4

theorem repeatSearch_of_run (c : Char) (hd : c.isDigit = true) :
    ∀ l : List Char, [c, c, c, c] <:+: l → (repeatSearch l).isSome = true := by
  intro l
  induction l with
  | nil => intro h; exact absurd (List.infix_nil.mp h) (by simp)
  | cons a l ih =>
    intro h
    show (if a.isDigit && (l.take 3 == [a, a, a]) then some (a, 1 + leadRun a l)
        else repeatSearch l).isSome = true
    by_cases hc : (a.isDigit && (l.take 3 == [a, a, a])) = true
    · rw [if_pos hc]; rfl
    · rw [if_neg hc]
      apply ih
      rcases List.infix_cons_iff.mp h with hpre | hinf
      · exfalso
        apply hc
        obtain ⟨hb, hrest⟩ := List.cons_prefix_cons.mp hpre
        subst hb
        have htake : l.take 3 = [c, c, c] := by
          have := List.prefix_iff_eq_take.mp hrest
          simpa using this.symm
        simp [hd, htake]
      · exact hinf


/-! ### Concrete fixtures used by witnesses and counterexamples -/

/-- Two rows for the same counterparty, goods then services (§8
scenario of the spec). -/
def frRows : List Row :=
  [{ country := some "FR", vat := some "12345678901", amountCell := .str "1000",
     ttype := some "L" },
   { country := some "FR", vat := some "12345678901", amountCell := .str "500",
     ttype := some "S" }]

/-- The aggregate the §8 scenario produces. -/
def frD : AggData :=
  ((processState frRows).aggregated.lookup "FR:12345678901").getD emptyAgg

/-- Two rows with distinct `(country_code, vat_number)` pairs whose
joined key strings collide (`"A:B" ++ ":" ++ "C" = "A" ++ ":" ++ "B:C"`). -/
def collidingRows : List Row :=
  [{ country := some "A:B", vat := some "C", amountCell := .num ⟨10, 1⟩ },
   { country := some "A", vat := some "B:C", amountCell := .num ⟨5, 1⟩ }]

/-- A total line (customer cell `"Total"`) with a resolvable VAT cell
and a nonzero amount. -/
def totalRow : Row :=
  { customer := some "Total", vat := some "DE135792468", amountCell := .num ⟨100, 1⟩ }

/-- A suspicious row (repeated digits) with a nonzero amount. -/
def suspRow : Row :=
  { country := some "DE", vat := some "1111111", amountCell := .num ⟨5, 1⟩ }

/-- The same suspicious row with amount 0. -/
def suspZeroRow : Row :=
  { country := some "DE", vat := some "1111111", amountCell := .num ⟨0, 1⟩ }

/-! ### Claim theorems -/

/-- C1 (amended): for every run of `process_data`, the aggregated
output has exactly one record per distinct joined key string
`country_code ++ ":" ++ vat_number` occurring among the aggregated
rows — the key list is duplicate-free and equals the first-occurrence
key stream — and the entry for key `k` holds exactly the sum of the
amounts of the contributing rows with that key string, which the output
record reports rounded to 2 decimal places.  (Distinct
`(country_code, vat_number)` pairs merge into one record when their
joined strings coincide.) -/
theorem c1_agg_one_record_per_key_sum (rows : List Row) (k : String) (d : AggData)
    (h : (processState rows).aggregated.lookup k = some d) :
    ((processState rows).aggregated.map Prod.fst).Nodup
    ∧ (processState rows).aggregated.map Prod.fst = dedupKeys (contribs rows)
    ∧ d.amount = sumFor k (contribs rows)
    ∧ (renderAgg d).amount = round2 (sumFor k (contribs rows))
    ∧ (processData rows).aggregated_transactions
        = (processState rows).aggregated.map (fun p => renderAgg p.2)
    ∧ (processData rows).original_transactions = (contribs rows).map (fun c => c.1) := by
  have hagg := processState_aggregated rows
  have hdam : d.amount = sumFor k (contribs rows) := by
    have ha := aggFold_amount (contribs rows) [] k
    rw [← hagg] at ha
    unfold amountAt at ha
    rw [h] at ha
    simpa [List.lookup, Amt.zero_add'] using ha
  refine ⟨?_, ?_, hdam, ?_, rfl, processState_valid rows⟩
  · rw [hagg]
    exact aggFold_nodup _ [] (by simp)
  · rw [hagg, aggFold_keys]
    rfl
  · show round2 d.amount = _
    rw [hdam]

/-- Witness for C1 at the §8 scenario rows. -/
theorem c1_agg_one_record_per_key_sum_witness :
    (processState frRows).aggregated.lookup "FR:12345678901" = some frD
    ∧ (((processState frRows).aggregated.map Prod.fst).Nodup
    ∧ (processState frRows).aggregated.map Prod.fst = dedupKeys (contribs frRows)
    ∧ frD.amount = sumFor "FR:12345678901" (contribs frRows)
    ∧ (renderAgg frD).amount = round2 (sumFor "FR:12345678901" (contribs frRows))
    ∧ (processData frRows).aggregated_transactions
        = (processState frRows).aggregated.map (fun p => renderAgg p.2)
    ∧ (processData frRows).original_transactions = (contribs frRows).map (fun c => c.1)) :=
  ⟨by decide, c1_agg_one_record_per_key_sum frRows "FR:12345678901" frD (by decide)⟩

/-- Counterexample to C1 as stated: on `collidingRows` both rows are
aggregated and their `(country_code, vat_number)` pairs are distinct,
yet the output holds a single record, and no record carries the first
pair. -/
theorem c1_pair_key_counterexample :
    (processData collidingRows).original_transactions.map
        (fun t => (t.country_code, t.vat_number)) = [("A:B", "C"), ("A", "B:C")]
    ∧ (processData collidingRows).aggregated_transactions.length = 1
    ∧ ¬ (∀ pr ∈ (processData collidingRows).original_transactions.map
            (fun t => (t.country_code, t.vat_number)),
          ∃ rec ∈ (processData collidingRows).aggregated_transactions,
            (rec.country_code, rec.vat_number) = pr) := by decide

/-- Any total-line row reduces to a skipped outcome. -/
theorem rowEval_total (i : ℕ) (row : Row) (h : rowIsTotal row = true) :
    (∃ w, rowEval i row = .badAmount w) ∨ rowEval i row = .totalLine := by
  unfold rowEval
  cases ha : rowAmountOf row with
  | none => exact Or.inl ⟨_, rfl⟩
  | some q =>
    right
    simp [h]

/-- C2 (amended): a row detected as a total line never enters the blank,
suspicious, valid or invalid buckets, the aggregation dictionary, or the
running total amount — so it is excluded from every derived count in the
metrics except `total_rows`, which counts every row, total lines
included. -/
theorem c2_total_line_excluded (st : ProcState) (i : ℕ) (row : Row)
    (h : rowIsTotal row = true) :
    (applyOutcome st (rowEval i row)).blank_vat_rows = st.blank_vat_rows
    ∧ (applyOutcome st (rowEval i row)).suspicious_vat_rows = st.suspicious_vat_rows
    ∧ (applyOutcome st (rowEval i row)).valid_transactions = st.valid_transactions
    ∧ (applyOutcome st (rowEval i row)).invalid_rows = st.invalid_rows
    ∧ (applyOutcome st (rowEval i row)).aggregated = st.aggregated
    ∧ (applyOutcome st (rowEval i row)).total_amount = st.total_amount
    ∧ (applyOutcome st (rowEval i row)).total_rows = st.total_rows + 1 := by
  rcases rowEval_total i row h with ⟨w, hw⟩ | hw <;> rw [hw] <;>
    exact ⟨rfl, rfl, rfl, rfl, rfl, rfl, rfl⟩

/-- Witness for C2 at a concrete total-line row. -/
theorem c2_total_line_excluded_witness :
    rowIsTotal totalRow = true
    ∧ ((applyOutcome initState (rowEval 0 totalRow)).blank_vat_rows = initState.blank_vat_rows
    ∧ (applyOutcome initState (rowEval 0 totalRow)).suspicious_vat_rows
        = initState.suspicious_vat_rows
    ∧ (applyOutcome initState (rowEval 0 totalRow)).valid_transactions
        = initState.valid_transactions
    ∧ (applyOutcome initState (rowEval 0 totalRow)).invalid_rows = initState.invalid_rows
    ∧ (applyOutcome initState (rowEval 0 totalRow)).aggregated = initState.aggregated
    ∧ (applyOutcome initState (rowEval 0 totalRow)).total_amount = initState.total_amount
    ∧ (applyOutcome initState (rowEval 0 totalRow)).total_rows = initState.total_rows + 1) :=
  ⟨by decide, c2_total_line_excluded initState 0 totalRow (by decide)⟩

/-- Counterexample to C2 as stated: a total-line row is absent from all
buckets but IS counted by the `total_rows` metric, so it is not excluded
from all counts in the returned metrics. -/
theorem c2_total_rows_counterexample :
    rowIsTotal totalRow = true
    ∧ (processData [totalRow]).aggregated_transactions = []
    ∧ (processData [totalRow]).blank_vat_entries = []
    ∧ (processData [totalRow]).suspicious_vat_entries = []
    ∧ (processData [totalRow]).metrics.valid_transactions = 0
    ∧ (processData [totalRow]).metrics.total_rows = 1 := by decide


/-- A parsed row that is neither blank nor a total line goes to the
invalid bucket exactly when the country code is empty or the amount is
zero, and is otherwise aggregated. -/
theorem rowEval_normal (i : ℕ) (row : Row) (q : Amt)
    (ht : rowIsTotal row = false) (hb : rowIsBlank row = false)
    (ha : rowAmountOf row = some q) :
    rowEval i row = (if rowCountry row = "" ∨ q.isZero = true
      then .invalidRow (rowTransaction i row q) (rowLineNumber i row)
      else .okRow (rowTransaction i row q) (rowCountry row) (rowVatNum row)) := by
  unfold rowEval
  rw [ha]
  by_cases hc : rowCountry row = "" ∨ q.isZero = true
  · have hbc : (rowCountry row == "" || q.isZero) = true := by
      rcases hc with hc | hc
      · simp [hc]
      · simp [hc]
    simp [hb, ht, hbc, hc]
  · have hbc : (rowCountry row == "" || q.isZero) = false := by
      obtain ⟨h1, h2⟩ := not_or.mp hc
      have h2' : q.isZero = false := by revert h2; cases q.isZero <;> simp
      simp [h1, h2']
    simp [hb, ht, hbc, hc]

/-- The suspicion flag of a parsed non-blank non-total row whose VAT
validation failed. -/
theorem rowSusp_of_invalid (row : Row)
    (ht : rowIsTotal row = false) (hb : rowIsBlank row = false)
    (hv : (validateVat (rowCountry row) (rowVatNum row)).1 = false) :
    rowSusp row = (true, (validateVat (rowCountry row) (rowVatNum row)).2) := by
  unfold rowSusp
  rcases hval : validateVat (rowCountry row) (rowVatNum row) with ⟨b, r⟩
  rw [hval] at hv
  simp only [] at hv
  subst hv
  simp [hb, ht]

/-- C3 (amended): a row whose amount parses, that is neither a total
line nor blank-VAT, and whose VAT validation fails, is flagged
suspicious and appended to the suspicious bucket; it is additionally
aggregated (and added to the valid transactions) exactly when its
country code is non-empty and its amount is nonzero — otherwise it goes
to the invalid bucket and is not aggregated. -/
theorem c3_suspicious_recorded_and_aggregated (i : ℕ) (row : Row) (st : ProcState) (q : Amt)
    (ht : rowIsTotal row = false) (hb : rowIsBlank row = false)
    (ha : rowAmountOf row = some q)
    (hv : (validateVat (rowCountry row) (rowVatNum row)).1 = false) :
    (rowTransaction i row q).is_suspicious = true
    ∧ (applyOutcome st (rowEval i row)).suspicious_vat_rows
        = st.suspicious_vat_rows ++ [rowTransaction i row q]
    ∧ (applyOutcome st (rowEval i row)).aggregated
        = (if rowCountry row = "" ∨ q.isZero = true then st.aggregated
           else aggUpdate st.aggregated (aggKey (rowCountry row) (rowVatNum row))
             (rowCountry row) (rowVatNum row) (rowTransaction i row q))
    ∧ (applyOutcome st (rowEval i row)).valid_transactions
        = (if rowCountry row = "" ∨ q.isZero = true then st.valid_transactions
           else st.valid_transactions ++ [rowTransaction i row q])
    ∧ (applyOutcome st (rowEval i row)).invalid_rows
        = (if rowCountry row = "" ∨ q.isZero = true
           then st.invalid_rows ++ [(rowLineNumber i row, invalidReason)]
           else st.invalid_rows) := by
  have heval := rowEval_normal i row q ht hb ha
  have hts : (rowTransaction i row q).is_suspicious = true := by
    show (rowSusp row).1 = true
    rw [rowSusp_of_invalid row ht hb hv]
  refine ⟨hts, ?_, ?_, ?_, ?_⟩ <;> rw [heval] <;> by_cases hc : rowCountry row = "" ∨ q.isZero = true <;>
    simp only [if_pos, if_neg, hc, if_true, if_false, ite_true, ite_false] <;>
    simp [applyOutcome, hts]

/-- Witness for C3 at a suspicious row with nonzero amount. -/
theorem c3_suspicious_recorded_and_aggregated_witness :
    (rowIsTotal suspRow = false ∧ rowIsBlank suspRow = false
      ∧ rowAmountOf suspRow = some ⟨5, 1⟩
      ∧ (validateVat (rowCountry suspRow) (rowVatNum suspRow)).1 = false)
    ∧ ((rowTransaction 0 suspRow ⟨5, 1⟩).is_suspicious = true
    ∧ (applyOutcome initState (rowEval 0 suspRow)).suspicious_vat_rows
        = initState.suspicious_vat_rows ++ [rowTransaction 0 suspRow ⟨5, 1⟩]
    ∧ (applyOutcome initState (rowEval 0 suspRow)).aggregated
        = (if rowCountry suspRow = "" ∨ Amt.isZero ⟨5, 1⟩ = true then initState.aggregated
           else aggUpdate initState.aggregated
             (aggKey (rowCountry suspRow) (rowVatNum suspRow))
             (rowCountry suspRow) (rowVatNum suspRow) (rowTransaction 0 suspRow ⟨5, 1⟩))
    ∧ (applyOutcome initState (rowEval 0 suspRow)).valid_transactions
        = (if rowCountry suspRow = "" ∨ Amt.isZero ⟨5, 1⟩ = true
           then initState.valid_transactions
           else initState.valid_transactions ++ [rowTransaction 0 suspRow ⟨5, 1⟩])
    ∧ (applyOutcome initState (rowEval 0 suspRow)).invalid_rows
        = (if rowCountry suspRow = "" ∨ Amt.isZero ⟨5, 1⟩ = true
           then initState.invalid_rows ++ [(rowLineNumber 0 suspRow, invalidReason)]
           else initState.invalid_rows)) :=
  ⟨⟨by decide, by decide, by decide, by decide⟩,
    c3_suspicious_recorded_and_aggregated 0 suspRow initState ⟨5, 1⟩
      (by decide) (by decide) (by decide) (by decide)⟩

/-- Counterexample to C3 as stated: a non-total, non-blank row whose
VAT validation fails is recorded as suspicious but, because its amount
is zero, it is routed to the invalid bucket and never aggregated. -/
theorem c3_zero_amount_counterexample :
    rowIsTotal suspZeroRow = false
    ∧ rowIsBlank suspZeroRow = false
    ∧ (validateVat (rowCountry suspZeroRow) (rowVatNum suspZeroRow)).1 = false
    ∧ (processData [suspZeroRow]).suspicious_vat_entries.length = 1
    ∧ (processData [suspZeroRow]).aggregated_transactions = []
    ∧ (processData [suspZeroRow]).original_transactions = []
    ∧ (processData [suspZeroRow]).invalid_rows.length = 1 := by decide

/-- C10: for a parsed row that is neither a total line nor blank-VAT,
the invalid bucket is taken exactly when the country code is empty or
the amount equals zero; any other amount — in particular a strictly
negative one — yields a valid transaction whose amount is added to the
running total and merged into the aggregate of its key. -/
theorem c10_negative_amount_accepted (i : ℕ) (row : Row) (st : ProcState) (q : Amt)
    (ht : rowIsTotal row = false) (hb : rowIsBlank row = false)
    (ha : rowAmountOf row = some q) :
    rowEval i row = (if rowCountry row = "" ∨ q.isZero = true
      then .invalidRow (rowTransaction i row q) (rowLineNumber i row)
      else .okRow (rowTransaction i row q) (rowCountry row) (rowVatNum row))
    ∧ (applyOutcome st (rowEval i row)).valid_transactions
        = (if rowCountry row = "" ∨ q.isZero = true then st.valid_transactions
           else st.valid_transactions ++ [rowTransaction i row q])
    ∧ (applyOutcome st (rowEval i row)).total_amount
        = (if rowCountry row = "" ∨ q.isZero = true then st.total_amount
           else st.total_amount.add q)
    ∧ (applyOutcome st (rowEval i row)).aggregated
        = (if rowCountry row = "" ∨ q.isZero = true then st.aggregated
           else aggUpdate st.aggregated (aggKey (rowCountry row) (rowVatNum row))
             (rowCountry row) (rowVatNum row) (rowTransaction i row q))
    ∧ (applyOutcome st (rowEval i row)).invalid_rows
        = (if rowCountry row = "" ∨ q.isZero = true
           then st.invalid_rows ++ [(rowLineNumber i row, invalidReason)]
           else st.invalid_rows) := by
  have heval := rowEval_normal i row q ht hb ha
  refine ⟨heval, ?_, ?_, ?_, ?_⟩ <;> rw [heval] <;>
    by_cases hc : rowCountry row = "" ∨ q.isZero = true <;>
    simp only [if_pos, if_neg, hc, if_true, if_false, ite_true, ite_false] <;>
    simp [applyOutcome, rowTransaction]

/-- A strictly negative row amount for the C10 witness. -/
def negRow : Row :=
  { country := some "DE", vat := some "135792468", amountCell := .num ⟨-5, 1⟩ }

/-- Witness for C10 at a strictly negative amount. -/
theorem c10_negative_amount_accepted_witness :
    (rowIsTotal negRow = false ∧ rowIsBlank negRow = false
      ∧ rowAmountOf negRow = some ⟨-5, 1⟩
      ∧ Amt.ltB ⟨-5, 1⟩ Amt.zero = true)
    ∧ (rowEval 0 negRow = (if rowCountry negRow = "" ∨ Amt.isZero ⟨-5, 1⟩ = true
        then .invalidRow (rowTransaction 0 negRow ⟨-5, 1⟩) (rowLineNumber 0 negRow)
        else .okRow (rowTransaction 0 negRow ⟨-5, 1⟩) (rowCountry negRow) (rowVatNum negRow))
    ∧ (applyOutcome initState (rowEval 0 negRow)).valid_transactions
        = (if rowCountry negRow = "" ∨ Amt.isZero ⟨-5, 1⟩ = true
           then initState.valid_transactions
           else initState.valid_transactions ++ [rowTransaction 0 negRow ⟨-5, 1⟩])
    ∧ (applyOutcome initState (rowEval 0 negRow)).total_amount
        = (if rowCountry negRow = "" ∨ Amt.isZero ⟨-5, 1⟩ = true
           then initState.total_amount
           else initState.total_amount.add ⟨-5, 1⟩)
    ∧ (applyOutcome initState (rowEval 0 negRow)).aggregated
        = (if rowCountry negRow = "" ∨ Amt.isZero ⟨-5, 1⟩ = true then initState.aggregated
           else aggUpdate initState.aggregated
             (aggKey (rowCountry negRow) (rowVatNum negRow))
             (rowCountry negRow) (rowVatNum negRow) (rowTransaction 0 negRow ⟨-5, 1⟩))
    ∧ (applyOutcome initState (rowEval 0 negRow)).invalid_rows
        = (if rowCountry negRow = "" ∨ Amt.isZero ⟨-5, 1⟩ = true
           then initState.invalid_rows ++ [(rowLineNumber 0 negRow, invalidReason)]
           else initState.invalid_rows)) :=
  ⟨⟨by decide, by decide, by decide, by decide⟩,
    c10_negative_amount_accepted 0 negRow initState ⟨-5, 1⟩
      (by decide) (by decide) (by decide)⟩


/-- A transaction literal used to instantiate merge arguments. -/
def dummyTransaction : Transaction :=
  ⟨"1", "", "DE", "135792468", ⟨1, 1⟩, "L", false, false, false, none⟩

/-- C4: the transaction type of every aggregated record is `"S"` exactly when
some contributing row with its key is typed `"S"`, and `"L"` otherwise;
moreover merging can never demote an aggregate whose type is already
`"S"` (services is sticky). -/
theorem c4_services_dominate_sticky (rows : List Row) (k : String) (d : AggData)
    (h : (processState rows).aggregated.lookup k = some d)
    (d' : AggData) (rawCC rawVat : String) (t : Transaction)
    (hS : d'.transaction_type = "S") :
    d.transaction_type = (if hasSFor k (contribs rows) = true then "S" else "L")
    ∧ (mergeAgg d' rawCC rawVat t).transaction_type = "S" := by
  refine ⟨?_, mergeAgg_type_sticky d' rawCC rawVat t hS⟩
  have hagg := processState_aggregated rows
  rw [hagg] at h
  have hLS := aggFold_type_LS (contribs rows) [] k d (contribs_type_LS rows)
    (by intro d0 hd0; simp [List.lookup] at hd0) h
  have hiff := aggFold_type_S (contribs rows) [] k
  rw [h] at hiff
  simp only [List.lookup, Option.map_some', Option.map_none', Option.some_inj,
    false_or] at hiff
  by_cases hS' : hasSFor k (contribs rows) = true
  · rw [if_pos hS']
    exact hiff.mpr (Or.inr hS')
  · rw [if_neg hS']
    rcases hLS with hL | hSS
    · exact hL
    · rcases hiff.mp hSS with h0 | h0
      · exact absurd h0 (by simp)
      · exact absurd h0 hS'

/-- Witness for C4 at the §8 scenario (goods + services merge to
services). -/
theorem c4_services_dominate_sticky_witness :
    ((processState frRows).aggregated.lookup "FR:12345678901" = some frD
      ∧ ({ emptyAgg with transaction_type := "S" } : AggData).transaction_type = "S")
    ∧ (frD.transaction_type
        = (if hasSFor "FR:12345678901" (contribs frRows) = true then "S" else "L")
    ∧ (mergeAgg { emptyAgg with transaction_type := "S" } "FR" "12345678901"
        dummyTransaction).transaction_type = "S") :=
  ⟨⟨by decide, by decide⟩,
    c4_services_dominate_sticky frRows "FR:12345678901" frD (by decide)
      { emptyAgg with transaction_type := "S" } "FR" "12345678901" dummyTransaction
      (by decide)⟩

/-- A clean field passes through csv quoting untouched. -/
theorem csvField_clean (f : String) (h : needsQuote f = false) : csvField f = f := by
  unfold csvField
  rw [if_neg (by simp [h])]

/-- A record whose fields are all clean is the plain semicolon join. -/
theorem csvRow_clean (fields : List String) (h : ∀ f ∈ fields, needsQuote f = false) :
    csvRow fields = joinWith ";" fields := by
  unfold csvRow
  have hmap : fields.map csvField = fields.map id :=
    List.map_congr_left fun f hf => csvField_clean f (h f hf)
  rw [hmap, List.map_id]

/-- C5 (amended): when no emitted field contains the delimiter, the
quote character or a line terminator, `generate_file` produces exactly
one header record `Finanzamt;company;tax;MM/YYYY` followed by one
record `countrycode++vat;amount-with-decimal-comma;type` per
transaction, all fields joined by `';'` with no quoting; a field
containing such a character is emitted csv-quoted instead. -/
theorem c5_emission_format (company tax period y m : String) (ts : List GTransaction)
    (hp : strSplitChar '-' period = [y, m])
    (h1 : needsQuote company = false) (h2 : needsQuote tax = false)
    (h3 : needsQuote (m ++ "/" ++ y) = false)
    (h4 : ∀ t ∈ ts, needsQuote (t.country_code ++ t.vat_number) = false
        ∧ needsQuote (strReplaceChar '.' "," (formatAmount2 t.amount)) = false
        ∧ needsQuote t.transaction_type = false) :
    generateFile ⟨company, tax, period, ts⟩
      = some (joinWith ";" ["Finanzamt", company, tax, m ++ "/" ++ y]
          :: ts.map fun t => joinWith ";" [t.country_code ++ t.vat_number,
               strReplaceChar '.' "," (formatAmount2 t.amount), t.transaction_type]) := by
  unfold generateFile
  rw [hp]
  refine congrArg some ?_
  congr 1
  · apply csvRow_clean
    intro f hf
    simp only [List.mem_cons, List.not_mem_nil, or_false] at hf
    rcases hf with hf | hf | hf | hf <;> subst hf
    · decide
    · exact h1
    · exact h2
    · exact h3
  · apply List.map_congr_left
    intro t htmem
    obtain ⟨g1, g2, g3⟩ := h4 t htmem
    apply csvRow_clean
    intro f hf
    simp only [List.mem_cons, List.not_mem_nil, or_false] at hf
    rcases hf with hf | hf | hf <;> subst hf
    · exact g1
    · exact g2
    · exact g3

/-- Witness for C5 at the §8 emission scenario. -/
theorem c5_emission_format_witness :
    (strSplitChar '-' "2023-09" = ["2023", "09"]
      ∧ needsQuote "Test GmbH" = false
      ∧ needsQuote "DE123" = false
      ∧ needsQuote ("09" ++ "/" ++ "2023") = false)
    ∧ generateFile ⟨"Test GmbH", "DE123", "2023-09",
        [{ country_code := "FR", vat_number := "12345678901", amount := ⟨150000, 100⟩,
           transaction_type := "S" }]⟩
        = some ["Finanzamt;Test GmbH;DE123;09/2023", "FR12345678901;1500,00;S"] :=
  ⟨⟨by decide, by decide, by decide, by decide⟩,
    (c5_emission_format "Test GmbH" "DE123" "2023-09" "2023" "09"
        [{ country_code := "FR", vat_number := "12345678901", amount := ⟨150000, 100⟩,
           transaction_type := "S" }]
        (by decide) (by decide) (by decide) (by decide) (by decide)).trans (by decide)⟩

/-- Counterexample to C5 as stated: a company name containing the
delimiter is emitted quoted, so the output is not the unquoted field
join. -/
theorem c5_quoting_counterexample :
    generateFile ⟨"A;B", "DE123", "2023-09", []⟩
      = some ["Finanzamt;\"A;B\";DE123;09/2023"]
    ∧ "Finanzamt;\"A;B\";DE123;09/2023"
        ≠ joinWith ";" ["Finanzamt", "A;B", "DE123", "09/2023"] := by decide

/-- C6 (amended): a blank/missing amount cell parses as 0; a string
cell that fails the direct parse but parses after replacing `','` by
`'.'` yields that value; and a row whose two parse attempts both fail
only increments the row count and appends a warning — every bucket and
accumulator is untouched, so processing continues with later rows. -/
theorem c6_amount_parse_fallback (rowNA rowStr : Row) (s : String) (q : Amt) (i : ℕ)
    (rowBad : Row) (st : ProcState) (w : String)
    (hna : rowNA.amountCell = .na)
    (hstr : rowStr.amountCell = .str s)
    (hf1 : pyFloat s = none)
    (hf2 : pyFloat (strReplaceChar ',' "." s) = some q)
    (hbad : rowEval i rowBad = .badAmount w) :
    rowAmountOf rowNA = some Amt.zero
    ∧ rowAmountOf rowStr = some q
    ∧ applyOutcome st (rowEval i rowBad)
        = { st with total_rows := st.total_rows + 1, warnings := st.warnings ++ [w] } := by
  refine ⟨?_, ?_, ?_⟩
  · simp [rowAmountOf, hna]
  · simp [rowAmountOf, hstr, hf1, hf2]
  · rw [hbad]
    rfl

/-- Rows for the C6 witness and counterexample. -/
def naRow : Row := { country := some "DE", vat := some "135792468" }

/-- A plain comma-decimal amount cell. -/
def commaRow : Row :=
  { country := some "DE", vat := some "135792468", amountCell := .str "1234,56" }

/-- A thousands-plus-comma amount cell that fails both parse
attempts. -/
def badAmtRow : Row :=
  { country := some "DE", vat := some "135792468", amountCell := .str "1.234,56" }

/-- Witness for C6. -/
theorem c6_amount_parse_fallback_witness :
    (naRow.amountCell = .na
      ∧ commaRow.amountCell = .str "1234,56"
      ∧ pyFloat "1234,56" = none
      ∧ pyFloat (strReplaceChar ',' "." "1234,56") = some ⟨123456, 100⟩
      ∧ rowEval 0 badAmtRow = .badAmount "Invalid amount in row 1: 1.234,56")
    ∧ (rowAmountOf naRow = some Amt.zero
    ∧ rowAmountOf commaRow = some ⟨123456, 100⟩
    ∧ applyOutcome initState (rowEval 0 badAmtRow)
        = { initState with
              total_rows := initState.total_rows + 1
              warnings := initState.warnings ++ ["Invalid amount in row 1: 1.234,56"] }) :=
  ⟨⟨rfl, rfl, by decide, by decide, by decide⟩,
    c6_amount_parse_fallback naRow commaRow "1234,56" ⟨123456, 100⟩ 0 badAmtRow initState
      "Invalid amount in row 1: 1.234,56" rfl rfl (by decide) (by decide) (by decide)⟩

/-- Counterexample to C6 as stated: `"1.234,56"` and `"1,234.56"` fail
both parse attempts (the comma-to-dot retry yields two decimal points),
so such a row is skipped with a warning rather than parsed; later rows
are still processed. -/
theorem c6_thousands_counterexample :
    pyFloat "1.234,56" = none
    ∧ pyFloat (strReplaceChar ',' "." "1.234,56") = none
    ∧ pyFloat "1,234.56" = none
    ∧ pyFloat (strReplaceChar ',' "." "1,234.56") = none
    ∧ rowAmountOf badAmtRow = none
    ∧ (processData [badAmtRow]).warnings = ["Invalid amount in row 1: 1.234,56"]
    ∧ (processData [badAmtRow]).original_transactions = []
    ∧ (processData [badAmtRow,
        { country := some "FR", vat := some "12345678901", amountCell := .str "1000",
          ttype := some "L" }]).metrics.valid_transactions = 1 := by decide

/-- C7: a VAT number containing four or more repeated identical digits
in a row is rejected by `validate_vat_number` for every country code,
and `"1111111"` in particular is rejected for every non-empty country
code with the repeated-digits reason (digit `'1'`, run length 7). -/
theorem c7_repeated_digits_invalid (cc vat : String) (c : Char) (cc2 : String)
    (hd : c.isDigit = true)
    (hrun : [c, c, c, c] <:+: vat.data)
    (hcc2 : cc2 ≠ "") :
    (validateVat cc vat).1 = false
    ∧ validateVat cc2 "1111111" = (false, some (.repeating '1' 7)) := by
  constructor
  · have hvne : vat ≠ "" := by
      intro hv
      rw [hv] at hrun
      have h0 := List.infix_nil.mp hrun
      simp at h0
    by_cases hccE : cc = ""
    · unfold validateVat
      rw [if_pos (by simp [hccE])]
    · unfold validateVat
      rw [if_neg (by simp [hccE, hvne])]
      have hsome : (repeatSearch (pyStrip vat).data).isSome = true := by
        apply repeatSearch_of_run c hd
        show [c, c, c, c] <:+: stripList vat.data
        apply infix_stripList
        · intro x hx
          simp only [List.mem_cons, List.not_mem_nil, or_false, or_self] at hx
          rw [hx]
          exact digit_not_ws c hd
        · simp
        · exact hrun
      obtain ⟨pr, hpr⟩ := Option.isSome_iff_exists.mp hsome
      obtain ⟨dg, n⟩ := pr
      simp only [hpr]
  · unfold validateVat
    rw [if_neg (by simp [hcc2])]
    rfl

/-- Witness for C7. -/
theorem c7_repeated_digits_invalid_witness :
    (('8' : Char).isDigit = true
      ∧ ['8', '8', '8', '8'] <:+: ("98888123" : String).data
      ∧ ("DE" : String) ≠ "")
    ∧ ((validateVat "XX" "98888123").1 = false
    ∧ validateVat "DE" "1111111" = (false, some (.repeating '1' 7))) :=
  ⟨⟨by decide, by decide, by decide⟩,
    c7_repeated_digits_invalid "XX" "98888123" '8' "DE" (by decide) (by decide) (by decide)⟩


/-- Keys produced by the by-name matching are canonical field names. -/
theorem buildMapping_keys_sub (fields : List (String × List String)) (cols : List String) :
    ∀ k, k ∈ (buildMapping fields cols).map Prod.fst → k ∈ fields.map Prod.fst := by
  induction fields with
  | nil => intro k h; simp [buildMapping] at h
  | cons p rest ih =>
    intro k h
    obtain ⟨std, poss⟩ := p
    unfold buildMapping at h
    cases hfind : cols.find? (headerMatches poss) with
    | some c =>
      rw [hfind] at h
      simp only [List.singleton_append, List.map_cons, List.mem_cons] at h
      rcases h with h | h
      · simp [h]
      · simp only [List.map_cons, List.mem_cons]
        exact Or.inr (ih k h)
    | none =>
      rw [hfind] at h
      simp only [List.nil_append] at h
      simp only [List.map_cons, List.mem_cons]
      exact Or.inr (ih k h)

/-- For a canonical field with synonym list `syns`, the by-name phase
selects exactly the first source column matching a synonym. -/
theorem buildMapping_lookup (fields : List (String × List String)) (cols : List String) :
    ∀ (f : String) (syns : List String),
    (fields.map Prod.fst).Nodup → fields.lookup f = some syns →
    (buildMapping fields cols).lookup f = cols.find? (headerMatches syns) := by
  induction fields with
  | nil => intro f syns _ h; simp [List.lookup] at h
  | cons p rest ih =>
    intro f syns hnd hl
    obtain ⟨std, poss⟩ := p
    by_cases hf : f = std
    · subst hf
      have hsyns : poss = syns := by
        simp only [List.lookup, beq_self_eq_true] at hl
        exact Option.some_inj.mp hl
      subst hsyns
      have hnotmem : f ∉ rest.map Prod.fst :=
        (List.nodup_cons.mp (by simpa using hnd)).1
      unfold buildMapping
      cases hfind : cols.find? (headerMatches poss) with
      | some c => simp [List.lookup]
      | none =>
        simp only [List.nil_append]
        exact (lookup_eq_none_iff _ _).mpr
          fun hmem => hnotmem (buildMapping_keys_sub rest cols f hmem)
    · have hb : (f == std) = false := by simp [hf]
      have hl' : rest.lookup f = some syns := by
        simpa [List.lookup, hb] using hl
      have hnd' : (rest.map Prod.fst).Nodup :=
        (List.nodup_cons.mp (by simpa using hnd)).2
      unfold buildMapping
      cases hfind : cols.find? (headerMatches poss) with
      | some c =>
        simp only [List.singleton_append, List.lookup, hb]
        exact ih f syns hnd' hl'
      | none =>
        simp only [List.nil_append]
        exact ih f syns hnd' hl'

/-- C8 (amended): in the by-name phase of `map_columns` the first
source column whose header exactly matches one of the synonyms of a
canonical field (case-insensitively) wins, and two canonical fields can only
claim the same source column by name if they are the same field (the
synonym tables are disjoint).  The positional fallback, by contrast, can
hand an already-claimed column to a second field. -/
theorem c8_first_match_wins_name_unique (cols : List String) (f g : String)
    (syns syns' : List String) (c : String)
    (hf : columnMapping.lookup f = some syns)
    (hg : columnMapping.lookup g = some syns')
    (hfc : (mapColumnsName cols).lookup f = some c)
    (hgc : (mapColumnsName cols).lookup g = some c) :
    (mapColumnsName cols).lookup f = cols.find? (headerMatches syns)
    ∧ f = g := by
  have hnd : (columnMapping.map Prod.fst).Nodup := by decide
  have h1 : (mapColumnsName cols).lookup f = cols.find? (headerMatches syns) :=
    buildMapping_lookup columnMapping cols f syns hnd hf
  refine ⟨h1, ?_⟩
  have h2 : (mapColumnsName cols).lookup g = cols.find? (headerMatches syns') :=
    buildMapping_lookup columnMapping cols g syns' hnd hg
  rw [h1] at hfc
  rw [h2] at hgc
  have hmf : headerMatches syns c = true := List.find?_some hfc
  have hmg : headerMatches syns' c = true := List.find?_some hgc
  obtain ⟨p, hp, hpe⟩ := List.any_eq_true.mp hmf
  obtain ⟨q, hq, hqe⟩ := List.any_eq_true.mp hmg
  have hpc : strLower p = strLower c := by simpa using hpe
  have hqc : strLower q = strLower c := by simpa using hqe
  have hdisj : ∀ fr ∈ columnMapping, ∀ gr ∈ columnMapping,
      fr.1 = gr.1 ∨ ∀ a ∈ fr.2, ∀ b ∈ gr.2, strLower a ≠ strLower b := by decide
  have hfm : (f, syns) ∈ columnMapping := lookup_mem _ _ _ hf
  have hgm : (g, syns') ∈ columnMapping := lookup_mem _ _ _ hg
  rcases hdisj (f, syns) hfm (g, syns') hgm with heq | hne
  · exact heq
  · exact absurd (hpc.trans hqc.symm) (hne p hp q hq)

/-- Witness for C8: the header list has both `"Country Code"` and
`"country"`; the first matching column wins for `country_code`. -/
theorem c8_first_match_wins_name_unique_witness :
    (columnMapping.lookup "country_code"
        = some ["country", "country code", "country indicator", "country_indicator"]
      ∧ (mapColumnsName ["x", "Country Code", "country"]).lookup "country_code"
        = some "Country Code")
    ∧ ((mapColumnsName ["x", "Country Code", "country"]).lookup "country_code"
        = (["x", "Country Code", "country"]).find?
            (headerMatches ["country", "country code", "country indicator", "country_indicator"])
    ∧ ("country_code" : String) = "country_code") :=
  ⟨⟨by decide, by decide⟩,
    c8_first_match_wins_name_unique ["x", "Country Code", "country"]
      "country_code" "country_code"
      ["country", "country code", "country indicator", "country_indicator"]
      ["country", "country code", "country indicator", "country_indicator"]
      "Country Code" (by decide) (by decide) (by decide) (by decide)⟩

/-- Counterexample to C8 as stated: with headers
`["vat", "a", "b", "c", "d", "e"]` the by-name phase claims column
`"vat"` for `vat_number`, and the positional fallback then assigns the
same column to `line` — one source column claimed by two canonical
fields. -/
theorem c8_positional_double_claim_counterexample :
    (mapColumns ["vat", "a", "b", "c", "d", "e"]).lookup "line" = some "vat"
    ∧ (mapColumns ["vat", "a", "b", "c", "d", "e"]).lookup "vat_number" = some "vat"
    ∧ ("line" : String) ≠ "vat_number"
    ∧ (mapColumnsName ["vat", "a", "b", "c", "d", "e"]).lookup "line" = none := by decide

/-- C9 (modelled from the spec, see `update_vat_id`): the update
operation corrects the country code and VAT number of the transaction
matching the line reference in place, and leaves the generator header,
the transaction count, every other transaction, and every other field
of the corrected transaction unchanged. -/
theorem c9_update_vat_in_place (g : Generator) (lineRef cc vat : String) (j : ℕ)
    (t : GTransaction) (h : g.transactions[j]? = some t) :
    (update_vat_id g lineRef cc vat).company_name = g.company_name
    ∧ (update_vat_id g lineRef cc vat).tax_number = g.tax_number
    ∧ (update_vat_id g lineRef cc vat).reporting_period = g.reporting_period
    ∧ (update_vat_id g lineRef cc vat).transactions.length = g.transactions.length
    ∧ (update_vat_id g lineRef cc vat).transactions[j]?
        = some (if t.line_numbers = some lineRef
            then { t with country_code := cc, vat_number := vat } else t)
    ∧ (if t.line_numbers = some lineRef
        then { t with country_code := cc, vat_number := vat } else t).amount = t.amount
    ∧ (if t.line_numbers = some lineRef
        then { t with country_code := cc, vat_number := vat } else t).transaction_type
          = t.transaction_type
    ∧ (if t.line_numbers = some lineRef
        then { t with country_code := cc, vat_number := vat } else t).line_numbers
          = t.line_numbers := by
  refine ⟨rfl, rfl, rfl, by simp [update_vat_id], ?_, ?_, ?_, ?_⟩ <;>
    by_cases hl : t.line_numbers = some lineRef <;>
    simp [update_vat_id, List.getElem?_map, h, hl]

/-- A generator fixture for the C9 witness. -/
def g9t0 : GTransaction :=
  { country_code := "DE", vat_number := "1111111", amount := ⟨100, 1⟩,
    transaction_type := "L", line_numbers := some "2" }

/-- A generator fixture for the C9 witness. -/
def g9t1 : GTransaction :=
  { country_code := "FR", vat_number := "12345678901", amount := ⟨50, 1⟩,
    transaction_type := "S", line_numbers := some "3" }

/-- A generator with two transactions for the C9 witness. -/
def g9 : Generator := ⟨"C GmbH", "DE9", "2023-09", [g9t0, g9t1]⟩

/-- Witness for C9: correcting the transaction referenced by line
`"2"`. -/
theorem c9_update_vat_in_place_witness :
    g9.transactions[0]? = some g9t0
    ∧ ((update_vat_id g9 "2" "IT" "99999999999").company_name = g9.company_name
    ∧ (update_vat_id g9 "2" "IT" "99999999999").tax_number = g9.tax_number
    ∧ (update_vat_id g9 "2" "IT" "99999999999").reporting_period = g9.reporting_period
    ∧ (update_vat_id g9 "2" "IT" "99999999999").transactions.length = g9.transactions.length
    ∧ (update_vat_id g9 "2" "IT" "99999999999").transactions[0]?
        = some (if g9t0.line_numbers = some "2"
            then { g9t0 with country_code := "IT", vat_number := "99999999999" } else g9t0)
    ∧ (if g9t0.line_numbers = some "2"
        then { g9t0 with country_code := "IT", vat_number := "99999999999" }
        else g9t0).amount = g9t0.amount
    ∧ (if g9t0.line_numbers = some "2"
        then { g9t0 with country_code := "IT", vat_number := "99999999999" }
        else g9t0).transaction_type = g9t0.transaction_type
    ∧ (if g9t0.line_numbers = some "2"
        then { g9t0 with country_code := "IT", vat_number := "99999999999" }
        else g9t0).line_numbers = g9t0.line_numbers) :=
  ⟨by decide, c9_update_vat_in_place g9 "2" "IT" "99999999999" 0 g9t0 (by decide)⟩

end VIES
